import Mathlib

/-!
Verification of the AICS interchange subsystem of crush-session-explorer.

The definitions below are a shallow embedding of the Go sources under
`src/`: `internal/interchange/export.go`, the interchange file holding
`ImportFromAICS` / `ConvertToDBFormat` / `ValidateArchive`
(src/unnamed/part_004), the interchange file holding the per-file export
(src/unnamed/part_003, which also carries the AICS type declarations), and
`internal/db` (src/unnamed/part_002).

Go's `time.Time` is modelled by `GoTime`: broken-down wall-clock fields
plus the zone offset, which is exactly the information `time.Parse`
produces and `Format` / `After` consume for the layouts this program uses.
-/

namespace AICS

/-- Model of a Go `time.Time` as produced by `time.Parse` for the layouts
used in `parseTimestamp`: wall-clock fields plus the zone offset in seconds
east of UTC (`Z`, absent zones and unknown zone abbreviations give 0). -/
structure GoTime where
  year : Nat
  month : Nat
  day : Nat
  hour : Nat
  minute : Nat
  second : Nat
  nsec : Nat
  offset : Int
deriving Repr, DecidableEq

/-- Days since 1970-01-01 of a civil date (Hinnant's algorithm), mirroring
the absolute-time arithmetic inside Go's `time` package. -/
def daysFromCivil (y m d : Int) : Int :=
  let y' := if m ≤ 2 then y - 1 else y
  let era := (if 0 ≤ y' then y' else y' - 399) / 400
  let yoe := y' - era * 400
  let doy := (153 * (if 2 < m then m - 3 else m + 9) + 2) / 5 + d - 1
  let doe := yoe * 365 + yoe / 4 - yoe / 100 + doy
  era * 146097 + doe - 719468

/-- Absolute instant in seconds since the Unix epoch: the quantity Go's
`time.Time` comparisons are about. -/
def GoTime.abs (t : GoTime) : Int :=
  daysFromCivil t.year t.month t.day * 86400
    + t.hour * 3600 + t.minute * 60 + t.second - t.offset

/-- Go `time.Time.After`: strict comparison of absolute instants, seconds
first, nanoseconds as the tie break (ties are NOT "after"). -/
def GoTime.after (t u : GoTime) : Bool :=
  u.abs < t.abs || (t.abs == u.abs && u.nsec < t.nsec)

def isLeapYear (y : Nat) : Bool :=
  y % 4 == 0 && (y % 100 != 0 || y % 400 == 0)

/-- Days in a month, as Go's `time` uses to range-check parsed days. -/
def daysIn (month year : Nat) : Nat :=
  if month = 2 then (if isLeapYear year then 29 else 28)
  else if month = 4 ∨ month = 6 ∨ month = 9 ∨ month = 11 then 30
  else 31

/-- The range checks Go's `time.Parse` performs on parsed components. -/
def validComponents (year month day hour minute second : Nat) : Prop :=
  1 ≤ month ∧ month ≤ 12 ∧ 1 ≤ day ∧ day ≤ daysIn month year ∧
    hour ≤ 23 ∧ minute ≤ 59 ∧ second ≤ 59

instance (y mo d h mi s : Nat) : Decidable (validComponents y mo d h mi s) := by
  unfold validComponents; infer_instance

/-- Final step of every `time.Parse` call modelled here: range-check the
components and assemble the time value. -/
def finishTime (year month day hour minute second nsec : Nat) (offset : Int) :
    Option GoTime :=
  if validComponents year month day hour minute second then
    some ⟨year, month, day, hour, minute, second, nsec, offset⟩
  else none

def digit? (c : Char) : Option Nat :=
  if 48 ≤ c.toNat ∧ c.toNat ≤ 57 then some (c.toNat - 48) else none

/-- A zero-padded two-digit layout element: exactly two digits. -/
def parse2 : List Char → Option (Nat × List Char)
  | c0 :: c1 :: rest =>
    match digit? c0, digit? c1 with
    | some a, some b => some (10 * a + b, rest)
    | _, _ => none
  | _ => none

/-- A four-digit year layout element. -/
def parse4 : List Char → Option (Nat × List Char)
  | c0 :: c1 :: c2 :: c3 :: rest =>
    match digit? c0, digit? c1, digit? c2, digit? c3 with
    | some a, some b, some c, some d => some (1000 * a + 100 * b + 10 * c + d, rest)
    | _, _, _, _ => none
  | _ => none

/-- Go `getnum` for a non-zero-padded layout element ("15"): one or two
digits. -/
def parseNum2 : List Char → Option (Nat × List Char)
  | c0 :: c1 :: rest =>
    match digit? c0, digit? c1 with
    | some a, some b => some (10 * a + b, rest)
    | some a, none => some (a, c1 :: rest)
    | _, _ => none
  | [c0] =>
    match digit? c0 with
    | some a => some (a, [])
    | none => none
  | [] => none

def expectChar (c : Char) : List Char → Option (List Char)
  | x :: rest => if x = c then some rest else none
  | [] => none

def takeDigits : List Char → List Nat × List Char
  | c :: rest =>
    match digit? c with
    | some d =>
      let (ds, r) := takeDigits rest
      (d :: ds, r)
    | none => ([], c :: rest)
  | [] => ([], [])

/-- Go `getnum`-style bounded digit run: at most `n` leading digits. -/
def takeDigitsUpTo : Nat → List Char → List Nat × List Char
  | 0, l => ([], l)
  | _ + 1, [] => ([], [])
  | n + 1, c :: rest =>
    match digit? c with
    | some d =>
      let (ds, r) := takeDigitsUpTo n rest
      (d :: ds, r)
    | none => ([], c :: rest)

/-- Nanoseconds denoted by a fractional-digit run (first nine digits are
significant, shorter runs are scaled up), as in Go `parseNanoseconds`. -/
def nanoOfDigits (ds : List Nat) : Nat :=
  let ds9 := ds.take 9
  ds9.foldl (fun acc d => 10 * acc + d) 0 * 10 ^ (9 - ds9.length)

/-- Optional fractional second of Go's strict RFC3339 parse: a dot followed
by at least one digit; all digits are consumed, the first nine count. -/
def parseFracDot : List Char → Option (Nat × List Char)
  | '.' :: rest =>
    match takeDigits rest with
    | ([], _) => none
    | (ds, r) => some (nanoOfDigits ds, r)
  | l => some (0, l)

/-- Optional fractional second of Go's generic layout engine: a dot or
comma followed by a digit consumes up to nine fractional digits. -/
def parseFracLenient (l : List Char) : Nat × List Char :=
  match l with
  | c :: d :: rest =>
    if (c = '.' ∨ c = ',') ∧ (digit? d).isSome then
      let (ds, r) := takeDigitsUpTo 9 (d :: rest)
      (nanoOfDigits ds, r)
    else (0, l)
  | _ => (0, l)

/-- Zone suffix of Go's strict RFC3339 parse: `Z` or a signed two-digit
hour-and-minute offset. -/
def parseZone : List Char → Option (Int × List Char)
  | 'Z' :: rest => some (0, rest)
  | c :: rest =>
    if c = '+' ∨ c = '-' then
      match parse2 rest with
      | some (hh, ':' :: rest2) =>
        match parse2 rest2 with
        | some (mm, rest3) =>
          if hh ≤ 23 ∧ mm ≤ 59 then
            let off : Int := hh * 3600 + mm * 60
            some (if c = '-' then -off else off, rest3)
          else none
        | none => none
      | _ => none
    else none
  | [] => none

/-- Go `time.Parse(time.RFC3339, ts)`: Go special-cases this layout to a
strict RFC3339 parse (exact two-digit components, `T` separator, mandatory
zone). -/
def parseRFC3339 (s : String) : Option GoTime := do
  let (y, r1) ← parse4 s.data
  let r2 ← expectChar '-' r1
  let (mo, r3) ← parse2 r2
  let r4 ← expectChar '-' r3
  let (d, r5) ← parse2 r4
  let r6 ← expectChar 'T' r5
  let (h, r7) ← parse2 r6
  let r8 ← expectChar ':' r7
  let (mi, r9) ← parse2 r8
  let r10 ← expectChar ':' r9
  let (sec, r11) ← parse2 r10
  let (ns, r12) ← parseFracDot r11
  let (off, r13) ← parseZone r12
  if r13 = [] then finishTime y mo d h mi sec ns off else none

/-- Go `time.Parse(time.RFC3339Nano, ts)`: special-cased by Go to the same
strict RFC3339 parse (the fractional second is optional in both). -/
def parseRFC3339Nano (s : String) : Option GoTime :=
  parseRFC3339 s

/-- Go's generic layout engine on "2006-01-02", a separator, "15:04:05":
zero-padded month, day, minute, second; one-or-two-digit hour; then an
optional lenient fractional second. No zone element. -/
def parseDateTimeNoZone (sep : Char) (l : List Char) : Option (GoTime × List Char) := do
  let (y, r1) ← parse4 l
  let r2 ← expectChar '-' r1
  let (mo, r3) ← parse2 r2
  let r4 ← expectChar '-' r3
  let (d, r5) ← parse2 r4
  let r6 ← expectChar sep r5
  let (h, r7) ← parseNum2 r6
  let r8 ← expectChar ':' r7
  let (mi, r9) ← parse2 r8
  let r10 ← expectChar ':' r9
  let (sec, r11) ← parse2 r10
  let (ns, r12) := parseFracLenient r11
  let t ← finishTime y mo d h mi sec ns 0
  some (t, r12)

/-- Go `time.Parse("2006-01-02T15:04:05Z", ts)`: a lone `Z` in a layout is
a literal character, so this demands a trailing `Z` and, having no zone
element, yields UTC (offset 0). -/
def parseLayoutTZ (s : String) : Option GoTime := do
  let (t, r) ← parseDateTimeNoZone 'T' s.data
  let r2 ← expectChar 'Z' r
  if r2 = [] then some t else none

/-- Go `time.Parse("2006-01-02 15:04:05", ts)`. -/
def parseLayoutSQL (s : String) : Option GoTime := do
  let (t, r) ← parseDateTimeNoZone ' ' s.data
  if r = [] then some t else none

/-- Go `time.Parse("2006-01-02T15:04:05", ts)`. -/
def parseLayoutT (s : String) : Option GoTime := do
  let (t, r) ← parseDateTimeNoZone 'T' s.data
  if r = [] then some t else none

def monthNames : List String :=
  ["Jan", "Feb", "Mar", "Apr", "May", "Jun", "Jul", "Aug", "Sep", "Oct", "Nov", "Dec"]

def weekdayNames : List String :=
  ["Sun", "Mon", "Tue", "Wed", "Thu", "Fri", "Sat"]

def lowerEq (a b : Char) : Bool := a.toLower == b.toLower

/-- Go layout-name matching ("Jan", "Mon"): ASCII case-insensitive. -/
def matchName : List Char → List Char → Option (List Char)
  | [], r => some r
  | n :: ns, c :: cs => if lowerEq n c then matchName ns cs else none
  | _ :: _, [] => none

/-- First name of the list matching a head of the input; names are indexed
from `i` (months are 1-based, weekdays 0-based). -/
def findNameIdxFrom (i : Nat) : List String → List Char → Option (Nat × List Char)
  | [], _ => none
  | n :: ns, l =>
    match matchName n.data l with
    | some r => some (i, r)
    | none => findNameIdxFrom (i + 1) ns l

def isUpperAZ (c : Char) : Bool := 'A' ≤ c && c ≤ 'Z'

/-- Zone abbreviation as consumed by Go `parseTimeZone`, restricted to the
three-uppercase-letter form that the "MST" element of the layouts below
needs; a name that is not resolvable ends up as a fabricated zone with
offset 0 in Go, which is all the information `GoTime` keeps. -/
def parseZoneAbbrev : List Char → Option (List Char)
  | a :: b :: c :: rest =>
    if isUpperAZ a && isUpperAZ b && isUpperAZ c then some rest else none
  | _ => none

/-- Go `time.Parse(time.RFC1123, ts)`, layout "Mon, 02 Jan 2006 15:04:05
MST". The weekday name is syntax-checked and otherwise ignored. -/
def parseRFC1123 (s : String) : Option GoTime := do
  let (_, r1) ← findNameIdxFrom 0 weekdayNames s.data
  let r2 ← expectChar ',' r1
  let r3 ← expectChar ' ' r2
  let (d, r4) ← parse2 r3
  let r5 ← expectChar ' ' r4
  let (mo, r6) ← findNameIdxFrom 1 monthNames r5
  let r7 ← expectChar ' ' r6
  let (y, r8) ← parse4 r7
  let r9 ← expectChar ' ' r8
  let (h, r10) ← parseNum2 r9
  let r11 ← expectChar ':' r10
  let (mi, r12) ← parse2 r11
  let r13 ← expectChar ':' r12
  let (sec, r14) ← parse2 r13
  let (ns, r15) := parseFracLenient r14
  let r16 ← expectChar ' ' r15
  let r17 ← parseZoneAbbrev r16
  if r17 = [] then finishTime y mo d h mi sec ns 0 else none

/-- Go `time.Parse(time.RFC822, ts)`, layout "02 Jan 06 15:04 MST". The
two-digit year maps to 19xx from 69 on, 20xx below. -/
def parseRFC822 (s : String) : Option GoTime := do
  let (d, r1) ← parse2 s.data
  let r2 ← expectChar ' ' r1
  let (mo, r3) ← findNameIdxFrom 1 monthNames r2
  let r4 ← expectChar ' ' r3
  let (yy, r5) ← parse2 r4
  let r6 ← expectChar ' ' r5
  let (h, r7) ← parseNum2 r6
  let r8 ← expectChar ':' r7
  let (mi, r9) ← parse2 r8
  let r10 ← expectChar ' ' r9
  let r11 ← parseZoneAbbrev r10
  let y := if 69 ≤ yy then 1900 + yy else 2000 + yy
  if r11 = [] then finishTime y mo d h mi 0 0 0 else none

/-- `parseTimestamp` of internal/interchange/export.go: the empty string is
"absent"; otherwise the layouts are attempted in source order and the first
success wins; matching no layout is a soft failure (`none`), never an
error. -/
def parseTimestamp (ts : String) : Option GoTime :=
  if ts = "" then none
  else
    (parseRFC3339 ts).orElse fun _ =>
    (parseRFC3339Nano ts).orElse fun _ =>
    (parseLayoutTZ ts).orElse fun _ =>
    (parseLayoutSQL ts).orElse fun _ =>
    (parseLayoutT ts).orElse fun _ =>
    (parseRFC1123 ts).orElse fun _ =>
    parseRFC822 ts

def digitChar (n : Nat) : Char := Char.ofNat (48 + n)

/-- Go `Format` zero-padded two-digit element ("01", "02", "04", "05"):
minimum width two, wider if the value needs it. -/
def pad2 (n : Nat) : List Char :=
  if n < 100 then [digitChar (n / 10), digitChar (n % 10)] else (Nat.repr n).data

/-- Go `Format` four-digit year element "2006" (parsing only ever yields
years 0–9999). -/
def pad4 (n : Nat) : List Char :=
  if n < 10000 then
    [digitChar (n / 1000), digitChar (n / 100 % 10), digitChar (n / 10 % 10), digitChar (n % 10)]
  else (Nat.repr n).data

/-- Go `t.Format("2006-01-02T15:04:05Z")`: the lone `Z` is a literal, so
this prints the wall clock in `t`'s own zone and appends `Z` without any
conversion to UTC. -/
def formatLiteralZ (t : GoTime) : String :=
  ⟨pad4 t.year ++ '-' :: pad2 t.month ++ '-' :: pad2 t.day ++
    'T' :: pad2 t.hour ++ ':' :: pad2 t.minute ++ ':' :: pad2 t.second ++ ['Z']⟩

/-- Go `t.Format("2006")`. -/
def formatYear (t : GoTime) : String := ⟨pad4 t.year⟩

/-- Go `t.Format("01")`. -/
def formatMonth (t : GoTime) : String := ⟨pad2 t.month⟩

/-- Go `t.Format("02")`. -/
def formatDay (t : GoTime) : String := ⟨pad2 t.day⟩

/-- internal/db `Session` row (src/unnamed/part_002). -/
structure DbSession where
  ID : String := ""
  Title : Option String := none
  CreatedAt : Option String := none
  Metadata : Option String := none
  Content : Option String := none
  MessageCount : Option Int := none
deriving Repr, DecidableEq

/-- internal/db `ParsedMessage` (src/unnamed/part_002). -/
structure DbParsedMessage where
  ID : String := ""
  Role : String := ""
  Parts : List String := []
  Model : Option String := none
  Provider : Option String := none
  CreatedAt : Option String := none
deriving Repr, DecidableEq

/-- Open-ended AICS metadata map. The only entry the embedded code ever
writes is the integer `message_count`, so the string-to-anything bag is
narrowed to string-keyed integers; no embedded function reads it back. -/
abbrev Metadata := List (String × Int)

/-- AICS `Creator` (types declarations in src/unnamed/part_003). Each field
defaults to its Go zero value. -/
structure Creator where
  Name : String := ""
  Version : String := ""
  Comment : String := ""
deriving Repr, DecidableEq

/-- AICS `Browser` (types declarations in src/unnamed/part_003). -/
structure Browser where
  Name : String := ""
  Version : String := ""
  Comment : String := ""
deriving Repr, DecidableEq

/-- AICS `GitRefs` (types declarations in src/unnamed/part_003). -/
structure GitRefs where
  Branches : List String := []
  Issues : List String := []
  Commits : List String := []
  Tags : List String := []
  Repos : List String := []
deriving Repr, DecidableEq

/-- AICS `Content` (types declarations in src/unnamed/part_003). -/
structure Content where
  «Type» : String := ""
  Text : String := ""
  Data : Metadata := []
  MimeType : String := ""
  Encoding : String := ""
  Comment : String := ""
deriving Repr, DecidableEq

/-- AICS `Message` (types declarations in src/unnamed/part_003). The MCP
bundle is omitted: no embedded function constructs or reads it. -/
structure Message where
  ID : String := ""
  Timestamp : Option GoTime := none
  Role : String := ""
  Content : List Content := []
  Model : String := ""
  Provider : String := ""
  Metadata : Metadata := []
  Comment : String := ""
deriving Repr, DecidableEq

/-- AICS `Session` (types declarations in src/unnamed/part_003). -/
structure Session where
  ID : String := ""
  ClientID : String := ""
  Title : String := ""
  StartedAt : Option GoTime := none
  UpdatedAt : Option GoTime := none
  Messages : List Message := []
  GitRefs : Option GitRefs := none
  Metadata : Metadata := []
  Comment : String := ""
deriving Repr, DecidableEq

/-- AICS `Log` (types declarations in src/unnamed/part_003). -/
structure Log where
  Version : String := ""
  Creator : Creator := {}
  Browser : Option Browser := none
  Sessions : List Session := []
  Comment : String := ""
deriving Repr, DecidableEq

/-- AICS `Archive` (types declarations in src/unnamed/part_003). -/
structure Archive where
  Version : String := ""
  Creator : Creator := {}
  Browser : Option Browser := none
  Log : Log := {}
deriving Repr, DecidableEq

/-- `FormatVersion` constant of the AICS types declarations. -/
def FormatVersion : String := "1.0"

/-- `toolVersion` constant of the interchange package. -/
def toolVersion : String := "v1.0.1"

/-- The tool-call marker of internal/interchange/export.go. -/
def exportToolCallMarker : String := "🔧"

/-- The tool-result marker of internal/interchange/export.go. -/
def exportToolResultMarker : String := "📋"

/-- The tool-call marker literal of the import/per-file-export copies of the
interchange code (src/unnamed/part_004 line 118 and part_003 line 129): the
character sequence U+00F0 U+0178 U+201D U+00A7 ("ðŸ”§"), i.e. the UTF-8
bytes of the wrench emoji re-decoded as Windows-1252 — not the marker "🔧"
that internal/interchange/export.go writes. -/
def importToolCallMarker : String := "ðŸ”§"

/-- The tool-result marker literal of the same files: U+00F0 U+0178 U+201C
U+2039 ("ðŸ“‹"), the mojibake of "📋". -/
def importToolResultMarker : String := "ðŸ“‹"

/-- Character-level prefix test used to model Go `strings.HasPrefix`:
`goHasPre pre s` is true when `pre` is a leading run of `s`. For the valid
UTF-8 literals involved here the byte-level check of Go coincides with this
character-level one (UTF-8 decoding is deterministic and a valid byte
prefix ends on a character boundary). -/
def goHasPre : List Char → List Char → Bool
  | [], _ => true
  | _ :: _, [] => false
  | p :: ps, s :: ss => p == s && goHasPre ps ss

/-- Go `strings.HasPrefix s pre`. -/
def strHasPre (s pre : String) : Bool := goHasPre pre.data s.data

/-- The `parseTimestamp` guard applied to an optional source timestamp
(Go nil maps to nil), as in `convertSession` and `convertMessage`. -/
def parseOptTimestamp : Option String → Option GoTime
  | some s => parseTimestamp s
  | none => none

/-- The message record `convertMessage` builds, parameterized by the two
marker literals: the copy in internal/interchange/export.go uses the emoji,
the copy in src/unnamed/part_003 the mojibake strings. -/
def buildMessage (callMarker resultMarker : String)
    (dbMsg : DbParsedMessage) : Message :=
    { ID := dbMsg.ID
      Role := dbMsg.Role
      Model := dbMsg.Model.getD ""
      Provider := dbMsg.Provider.getD ""
      Timestamp := parseOptTimestamp dbMsg.CreatedAt
      Content := dbMsg.Parts.map (fun part =>
        { «Type» :=
            if part.length > 0 then
              if strHasPre part callMarker then "tool_call"
              else if strHasPre part resultMarker then "tool_result"
              else "text"
            else "text"
          Text := part })
      Metadata := [] }

/-- `convertMessage` logic: it builds the record and returns it with a nil
error — conversion cannot fail. -/
def convertMessageWith (callMarker resultMarker : String)
    (dbMsg : DbParsedMessage) : Except String Message :=
  .ok (buildMessage callMarker resultMarker dbMsg)

/-- `convertMessage` of internal/interchange/export.go. -/
def convertMessage (dbMsg : DbParsedMessage) : Except String Message :=
  convertMessageWith exportToolCallMarker exportToolResultMarker dbMsg

/-- `convertMessage` as it appears in src/unnamed/part_003 (the per-file
export copy), whose marker literals are the mojibake strings. -/
def convertMessageP3 (dbMsg : DbParsedMessage) : Except String Message :=
  convertMessageWith importToolCallMarker importToolResultMarker dbMsg

/-- One step of `convertSession`'s updated-at tracking: advance only when
the message has a timestamp strictly after the current value (or there is
no current value). -/
def updStep (upd : Option GoTime) (msg : Message) : Option GoTime :=
  match msg.Timestamp with
  | some t =>
    match upd with
    | none => some t
    | some u => if t.after u then some t else upd
  | none => upd

/-- The message loop of `convertSession`, parameterized like
`convertMessageWith`: accumulates converted messages and the running
updated-at value. -/
def convertSessionLoop (callMarker resultMarker : String)
    (msgs : List Message) (upd : Option GoTime) :
    List DbParsedMessage → Except String (List Message × Option GoTime)
  | [] => .ok (msgs, upd)
  | dbMsg :: rest =>
    match convertMessageWith callMarker resultMarker dbMsg with
    | .error e => .error ("failed to convert message " ++ dbMsg.ID ++ ": " ++ e)
    | .ok msg =>
      convertSessionLoop callMarker resultMarker (msgs ++ [msg]) (updStep upd msg) rest

/-- `convertSession` logic (identical in internal/interchange/export.go and
src/unnamed/part_003 apart from the marker literals of the message
conversion it calls). -/
def convertSessionWith (callMarker resultMarker : String)
    (dbSession : DbSession) (dbMessages : List DbParsedMessage) :
    Except String Session :=
  match convertSessionLoop callMarker resultMarker []
      (parseOptTimestamp dbSession.CreatedAt) dbMessages with
  | .error e => .error e
  | .ok (msgs, upd) =>
    .ok
      { ID := dbSession.ID
        Title := dbSession.Title.getD ""
        StartedAt := parseOptTimestamp dbSession.CreatedAt
        UpdatedAt := upd
        Messages := msgs
        Metadata :=
          match dbSession.MessageCount with
          | some c => [("message_count", c)]
          | none => [] }

/-- `convertSession` of internal/interchange/export.go. -/
def convertSession (dbSession : DbSession) (dbMessages : List DbParsedMessage) :
    Except String Session :=
  convertSessionWith exportToolCallMarker exportToolResultMarker dbSession dbMessages

/-- `convertSession` of src/unnamed/part_003. -/
def convertSessionP3 (dbSession : DbSession) (dbMessages : List DbParsedMessage) :
    Except String Session :=
  convertSessionWith importToolCallMarker importToolResultMarker dbSession dbMessages

/-- The session loop of `ExportToAICS`. -/
def exportLoop (messages : String → List DbParsedMessage) (acc : List Session) :
    List DbSession → Except String (List Session)
  | [] => .ok acc
  | dbSession :: rest =>
    match convertSession dbSession (messages dbSession.ID) with
    | .error e => .error ("failed to convert session " ++ dbSession.ID ++ ": " ++ e)
    | .ok session => exportLoop messages (acc ++ [session]) rest

/-- `ExportToAICS` of internal/interchange/export.go. The Go
`map[string][]db.ParsedMessage` argument is modelled as a total lookup
function, `[]` playing the role of the map's zero value for missing
keys. -/
def ExportToAICS (sessions : List DbSession)
    (messages : String → List DbParsedMessage) (providerName : String) :
    Except String Archive :=
  match exportLoop messages [] sessions with
  | .error e => .error e
  | .ok converted =>
    .ok
      { Version := FormatVersion
        Creator := { Name := "crush-session-explorer", Version := toolVersion,
                     Comment := "Exported from Crush database" }
        Browser := some { Name := providerName, Comment := "Original AI coding tool" }
        Log :=
          { Version := FormatVersion
            Creator := { Name := "crush-session-explorer", Version := toolVersion }
            Browser := some { Name := providerName }
            Sessions := converted } }

/-- The emoji re-tagging switch inside `convertAICSMessage`
(src/unnamed/part_004): re-apply the (mojibake) marker when the content
type says tool call or tool result and the text does not already start
with it. -/
def retagText (ty text : String) : String :=
  if ty = "tool_call" then
    if ¬ strHasPre text importToolCallMarker then
      importToolCallMarker ++ " " ++ text
    else text
  else if ty = "tool_result" then
    if ¬ strHasPre text importToolResultMarker then
      importToolResultMarker ++ " " ++ text
    else text
  else text

/-- `convertAICSMessage` of the import file (src/unnamed/part_004).
Content parts with empty text are dropped; the rest are re-tagged. -/
def convertAICSMessage (aicsMsg : Message) : Except String DbParsedMessage :=
  .ok
    { ID := aicsMsg.ID
      Role := aicsMsg.Role
      Model := if aicsMsg.Model ≠ "" then some aicsMsg.Model else none
      Provider := if aicsMsg.Provider ≠ "" then some aicsMsg.Provider else none
      CreatedAt :=
        match aicsMsg.Timestamp with
        | some t => some (formatLiteralZ t)
        | none => none
      Parts := aicsMsg.Content.foldl (fun parts content =>
        if content.Text ≠ "" then parts ++ [retagText content.«Type» content.Text]
        else parts) [] }

/-- The message loop of `convertAICSSession`. -/
def importMessagesLoop (acc : List DbParsedMessage) :
    List Message → Except String (List DbParsedMessage)
  | [] => .ok acc
  | aicsMsg :: rest =>
    match convertAICSMessage aicsMsg with
    | .error e => .error ("failed to convert message " ++ aicsMsg.ID ++ ": " ++ e)
    | .ok dbMsg => importMessagesLoop (acc ++ [dbMsg]) rest

/-- `convertAICSSession` of the import file (src/unnamed/part_004). -/
def convertAICSSession (aicsSession : Session) :
    Except String (DbSession × List DbParsedMessage) :=
  match importMessagesLoop [] aicsSession.Messages with
  | .error e => .error e
  | .ok dbMessages =>
    .ok
      ({ ID := aicsSession.ID
         Title := if aicsSession.Title ≠ "" then some aicsSession.Title else none
         CreatedAt :=
           match aicsSession.StartedAt with
           | some t => some (formatLiteralZ t)
           | none => none
         MessageCount := some (aicsSession.Messages.length : Int) }, dbMessages)

/-- The session loop of `ConvertToDBFormat`. The produced Go map is
modelled as a total lookup function updated per session (a later session
with the same id overwrites, as Go map assignment does). -/
def convertToDBFormatLoop (sessions : List DbSession)
    (messagesMap : String → List DbParsedMessage) :
    List Session → Except String (List DbSession × (String → List DbParsedMessage))
  | [] => .ok (sessions, messagesMap)
  | aicsSession :: rest =>
    match convertAICSSession aicsSession with
    | .error e => .error ("failed to convert session " ++ aicsSession.ID ++ ": " ++ e)
    | .ok (dbSession, dbMessages) =>
      convertToDBFormatLoop (sessions ++ [dbSession])
        (fun id => if id = aicsSession.ID then dbMessages else messagesMap id) rest

/-- `ConvertToDBFormat` of the import file (src/unnamed/part_004). -/
def ConvertToDBFormat (a : Archive) :
    Except String (List DbSession × (String → List DbParsedMessage)) :=
  convertToDBFormatLoop [] (fun _ => []) a.Log.Sessions

/-- Error outcomes of `ImportFromAICS`, one per `fmt.Errorf` site. -/
inductive ImportError where
  | malformedJSON (msg : String)
  | unsupportedVersion (got expected : String)
deriving Repr, DecidableEq

/-- The exact Go error message of each `ImportError`. -/
def renderImportError : ImportError → String
  | .malformedJSON msg => "failed to parse AICS file: " ++ msg
  | .unsupportedVersion got expected =>
    "unsupported AICS version: " ++ got ++ " (expected: " ++ expected ++ ")"

/-- `ImportFromAICS` of the import file (src/unnamed/part_004). JSON
decoding (`json.Unmarshal`) is standard-library behaviour outside this
repository; its outcome is the parameter: `.error e` for malformed input,
`.ok archive` for well-formed input. -/
def ImportFromAICS (parsed : Except String Archive) : Except ImportError Archive :=
  match parsed with
  | .error e => .error (.malformedJSON e)
  | .ok archive =>
    if archive.Version ≠ FormatVersion then
      .error (.unsupportedVersion archive.Version FormatVersion)
    else .ok archive

/-- The distinct error cases of `ValidateArchive`, one per `fmt.Errorf`
site. -/
inductive ValidationError where
  | missingVersion
  | unsupportedVersion (got expected : String)
  | missingCreatorName
  | noSessions
  | sessionMissingID (index : Nat)
  | sessionNoMessages (sessionID : String)
  | messageMissingID (sessionID : String) (index : Nat)
  | messageMissingRole (sessionID messageID : String)
  | messageNoContent (sessionID messageID : String)
deriving Repr, DecidableEq

/-- The exact Go error message of each `ValidationError`. -/
def renderValidationError : ValidationError → String
  | .missingVersion => "missing version field"
  | .unsupportedVersion got expected =>
    "unsupported version: " ++ got ++ " (expected: " ++ expected ++ ")"
  | .missingCreatorName => "missing creator name"
  | .noSessions => "archive contains no sessions"
  | .sessionMissingID i => "session " ++ Nat.repr i ++ ": missing ID"
  | .sessionNoMessages sid => "session " ++ sid ++ ": no messages"
  | .messageMissingID sid j => "session " ++ sid ++ ", message " ++ Nat.repr j ++ ": missing ID"
  | .messageMissingRole sid mid => "session " ++ sid ++ ", message " ++ mid ++ ": missing role"
  | .messageNoContent sid mid => "session " ++ sid ++ ", message " ++ mid ++ ": no content"

/-- The message loop of `ValidateArchive`: id, then role, then content, in
source order. -/
def validateMessages (sid : String) (j : Nat) : List Message → Option ValidationError
  | [] => none
  | msg :: rest =>
    if msg.ID = "" then some (.messageMissingID sid j)
    else if msg.Role = "" then some (.messageMissingRole sid msg.ID)
    else if msg.Content = [] then some (.messageNoContent sid msg.ID)
    else validateMessages sid (j + 1) rest

/-- The session loop of `ValidateArchive`: id, then non-empty messages,
then the message loop, in source order. -/
def validateSessions (i : Nat) : List Session → Option ValidationError
  | [] => none
  | session :: rest =>
    if session.ID = "" then some (.sessionMissingID i)
    else if session.Messages = [] then some (.sessionNoMessages session.ID)
    else
      match validateMessages session.ID 0 session.Messages with
      | some e => some e
      | none => validateSessions (i + 1) rest

/-- `ValidateArchive` of the import file (src/unnamed/part_004); `none` is
Go's nil error. -/
def ValidateArchive (archive : Archive) : Option ValidationError :=
  if archive.Version = "" then some .missingVersion
  else if archive.Version ≠ FormatVersion then
    some (.unsupportedVersion archive.Version FormatVersion)
  else if archive.Creator.Name = "" then some .missingCreatorName
  else if archive.Log.Sessions = [] then some .noSessions
  else validateSessions 0 archive.Log.Sessions

/-- `ExportSessionToFile` of src/unnamed/part_003. Directory creation and
the file write are modelled as always succeeding; the function returns the
path it writes together with the single-session archive it serializes
there. `filepath.Join` is modelled as slash-joining, the arguments the
program passes being clean path segments. -/
def ExportSessionToFile (session : Session) (baseDir providerName : String) :
    Except String (String × Archive) :=
  match session.StartedAt with
  | none => .error "session has no start time"
  | some t =>
    let sessionDir :=
      baseDir ++ "/" ++ formatYear t ++ "/" ++ formatMonth t ++ "/" ++ formatDay t
    let archive : Archive :=
      { Version := FormatVersion
        Creator := { Name := "crush-session-explorer", Version := toolVersion,
                     Comment := "Exported from Crush database" }
        Browser := some { Name := providerName, Comment := "Original AI coding tool" }
        Log :=
          { Version := FormatVersion
            Creator := { Name := "crush-session-explorer", Version := toolVersion }
            Browser := some { Name := providerName }
            Sessions := [session] } }
    .ok (sessionDir ++ "/" ++ session.ID ++ ".aics.json", archive)

/-- The loop of `ExportSessionsIndividually`; `k` counts the sessions
already processed so that `idGen k` models the freshly drawn UUID v7 of
`GenerateSessionID`. Like the Go function it returns both the files
written so far and the error, if any. -/
def exportIndividuallyLoop (messages : String → List DbParsedMessage)
    (baseDir providerName clientID : String) (idGen : Nat → String)
    (k : Nat) (exportedFiles : List String) :
    List DbSession → List String × Option String
  | [] => (exportedFiles, none)
  | dbSession :: rest =>
    match convertSessionP3 dbSession (messages dbSession.ID) with
    | .error e =>
      (exportedFiles, some ("failed to convert session " ++ dbSession.ID ++ ": " ++ e))
    | .ok session =>
      let session := { session with
        ID := idGen k
        ClientID := if clientID ≠ "" then clientID else session.ClientID }
      match ExportSessionToFile session baseDir providerName with
      | .error e =>
        (exportedFiles, some ("failed to export session " ++ session.ID ++ ": " ++ e))
      | .ok (filePath, _) =>
        exportIndividuallyLoop messages baseDir providerName clientID idGen
          (k + 1) (exportedFiles ++ [filePath]) rest

/-- `ExportSessionsIndividually` of src/unnamed/part_003. The UUID supply
of `GenerateSessionID` is modelled by `idGen`. -/
def ExportSessionsIndividually (sessions : List DbSession)
    (messages : String → List DbParsedMessage)
    (baseDir providerName clientID : String) (idGen : Nat → String) :
    List String × Option String :=
  exportIndividuallyLoop messages baseDir providerName clientID idGen 0 [] sessions

instance {ε α : Type} [DecidableEq ε] [DecidableEq α] : DecidableEq (Except ε α)
  | .error e, .error f =>
    if h : e = f then .isTrue (by rw [h]) else .isFalse (by simpa using h)
  | .error _, .ok _ => .isFalse (by simp)
  | .ok _, .error _ => .isFalse (by simp)
  | .ok a, .ok b =>
    if h : a = b then .isTrue (by rw [h]) else .isFalse (by simpa using h)

/-- A message the validator's message loop passes over without error. -/
def messageOK (m : Message) : Prop :=
  m.ID ≠ "" ∧ m.Role ≠ "" ∧ m.Content ≠ []

/-- A session the validator's session loop passes over without error. -/
def sessionOK (s : Session) : Prop :=
  s.ID ≠ "" ∧ s.Messages ≠ [] ∧ ∀ m ∈ s.Messages, messageOK m

theorem validateMessages_eq_none_iff (sid : String) (j : Nat) (L : List Message) :
    validateMessages sid j L = none ↔ ∀ m ∈ L, messageOK m := by
  induction L generalizing j with
  | nil => simp [validateMessages]
  | cons m rest ih =>
    simp only [validateMessages, List.mem_cons]
    split_ifs with h1 h2 h3
    · simp only [reduceCtorEq, false_iff]
      intro h
      exact (h m (Or.inl rfl)).1 h1
    · simp only [reduceCtorEq, false_iff]
      intro h
      exact (h m (Or.inl rfl)).2.1 h2
    · simp only [reduceCtorEq, false_iff]
      intro h
      exact (h m (Or.inl rfl)).2.2 h3
    · rw [ih]
      constructor
      · rintro h x (rfl | hx)
        · exact ⟨h1, h2, h3⟩
        · exact h x hx
      · intro h x hx
        exact h x (Or.inr hx)

theorem validateMessages_append (sid : String) (j : Nat) (pre rest : List Message)
    (h : ∀ m ∈ pre, messageOK m) :
    validateMessages sid j (pre ++ rest) = validateMessages sid (j + pre.length) rest := by
  induction pre generalizing j with
  | nil => simp
  | cons m pre ih =>
    obtain ⟨h1, h2, h3⟩ := h m (List.mem_cons_self m pre)
    simp only [List.cons_append, validateMessages, if_neg h1, if_neg h2, if_neg h3,
      List.append_eq]
    rw [ih (j + 1) (fun x hx => h x (List.mem_cons_of_mem m hx))]
    congr 1
    simp only [List.length_cons]
    omega

theorem validateSessions_eq_none_iff (i : Nat) (L : List Session) :
    validateSessions i L = none ↔ ∀ s ∈ L, sessionOK s := by
  induction L generalizing i with
  | nil => simp [validateSessions]
  | cons s rest ih =>
    simp only [validateSessions, List.mem_cons]
    split_ifs with h1 h2
    · simp only [reduceCtorEq, false_iff]
      intro h
      exact (h s (Or.inl rfl)).1 h1
    · simp only [reduceCtorEq, false_iff]
      intro h
      exact (h s (Or.inl rfl)).2.1 h2
    · cases hm : validateMessages s.ID 0 s.Messages with
      | some e =>
        simp only [reduceCtorEq, false_iff]
        intro h
        rw [(validateMessages_eq_none_iff s.ID 0 s.Messages).2 (h s (Or.inl rfl)).2.2] at hm
        cases hm
      | none =>
        rw [ih]
        constructor
        · rintro h x (rfl | hx)
          · exact ⟨h1, h2, (validateMessages_eq_none_iff x.ID 0 x.Messages).1 hm⟩
          · exact h x hx
        · intro h x hx
          exact h x (Or.inr hx)

theorem validateSessions_append (i : Nat) (pre rest : List Session)
    (h : ∀ s ∈ pre, sessionOK s) :
    validateSessions i (pre ++ rest) = validateSessions (i + pre.length) rest := by
  induction pre generalizing i with
  | nil => simp
  | cons s pre ih =>
    obtain ⟨h1, h2, h3⟩ := h s (List.mem_cons_self s pre)
    simp only [List.cons_append, validateSessions, if_neg h1, if_neg h2,
      (validateMessages_eq_none_iff s.ID 0 s.Messages).2 h3, List.append_eq]
    rw [ih (i + 1) (fun x hx => h x (List.mem_cons_of_mem s hx))]
    congr 1
    simp only [List.length_cons]
    omega

/-- `ValidateArchive` succeeds exactly on the archives satisfying the six
structural rules of the spec, with the role rule being only
non-emptiness. -/
theorem ValidateArchive_eq_none_iff (a : Archive) :
    ValidateArchive a = none ↔
      a.Version = FormatVersion ∧ a.Creator.Name ≠ "" ∧ a.Log.Sessions ≠ [] ∧
        ∀ s ∈ a.Log.Sessions, sessionOK s := by
  have hfv : FormatVersion ≠ "" := by decide
  unfold ValidateArchive
  split_ifs with h1 h2 h3 h4
  · simp only [reduceCtorEq, false_iff]
    rintro ⟨hv, -⟩
    exact hfv (hv ▸ h1)
  · simp only [reduceCtorEq, false_iff]
    rintro ⟨hv, -⟩
    exact h2 hv
  · push_neg at h2
    simp only [reduceCtorEq, false_iff]
    rintro ⟨-, hc, -⟩
    exact hc h3
  · push_neg at h2
    simp only [reduceCtorEq, false_iff]
    rintro ⟨-, -, hs, -⟩
    exact hs h4
  · push_neg at h2
    rw [validateSessions_eq_none_iff]
    constructor
    · intro h
      exact ⟨h2, h3, h4, h⟩
    · rintro ⟨-, -, -, h⟩
      exact h

theorem data_head_of_append {s : String} {c : Char} (h : s.data.head? = some c)
    (x : String) : (s ++ x).data.head? = some c := by
  rw [String.data_append]
  cases hs : s.data with
  | nil => rw [hs] at h; cases h
  | cons a l =>
    rw [hs] at h
    cases h
    rfl

theorem ne_of_head_ne {s t : String} {c d : Char} (hs : s.data.head? = some c)
    (ht : t.data.head? = some d) (h : c ≠ d) : s ≠ t := by
  intro he
  subst he
  rw [hs] at ht
  exact h (Option.some.inj ht)

theorem data_last_of_append (x : String) {s : String} {c : Char}
    (h : s.data.getLast? = some c) (hne : s.data ≠ []) :
    (x ++ s).data.getLast? = some c := by
  rw [String.data_append, List.getLast?_append_of_ne_nil _ hne, h]

theorem ne_of_last_ne {s t : String} {c d : Char} (hs : s.data.getLast? = some c)
    (ht : t.data.getLast? = some d) (h : c ≠ d) : s ≠ t := by
  intro he
  subst he
  rw [hs] at ht
  exact h (Option.some.inj ht)

theorem renderImportError_unsupported_head (got expected : String) :
    (renderImportError (.unsupportedVersion got expected)).data.head? = some 'u' := by
  have base : ("unsupported AICS version: " : String).data.head? = some 'u' := rfl
  simp only [renderImportError]
  exact data_head_of_append (data_head_of_append (data_head_of_append base _) _) _

theorem renderImportError_malformed_head (m : String) :
    (renderImportError (.malformedJSON m)).data.head? = some 'f' := by
  have base : ("failed to parse AICS file: " : String).data.head? = some 'f' := rfl
  simp only [renderImportError]
  exact data_head_of_append base _

theorem renderValidationError_unsupported_head (got expected : String) :
    (renderValidationError (.unsupportedVersion got expected)).data.head? = some 'u' := by
  have base : ("unsupported version: " : String).data.head? = some 'u' := rfl
  simp only [renderValidationError]
  exact data_head_of_append (data_head_of_append (data_head_of_append base _) _) _

/-- C3: an archive whose version field differs from the supported constant
"1.0" is rejected both by `ImportFromAICS` (even when the JSON decoded
fine, i.e. on the `.ok` outcome of decoding) and by `ValidateArchive`,
however well-formed it is otherwise; in both cases the error differs from
the malformed-JSON error, as a value and as a rendered message. -/
theorem C3_version_gate (a : Archive) (h : a.Version ≠ FormatVersion) :
    ImportFromAICS (.ok a) = .error (.unsupportedVersion a.Version FormatVersion) ∧
    (∀ m, ImportError.unsupportedVersion a.Version FormatVersion ≠ .malformedJSON m) ∧
    (∀ m, renderImportError (.unsupportedVersion a.Version FormatVersion) ≠
        renderImportError (.malformedJSON m)) ∧
    ∃ e, ValidateArchive a = some e ∧
      (e = .missingVersion ∨ e = .unsupportedVersion a.Version FormatVersion) ∧
      ∀ m, renderValidationError e ≠ renderImportError (.malformedJSON m) := by
  refine ⟨?_, ?_, ?_, ?_⟩
  · simp [ImportFromAICS, h]
  · intro m hm
    cases hm
  · intro m
    exact ne_of_head_ne (renderImportError_unsupported_head _ _)
      (renderImportError_malformed_head m) (by decide)
  · by_cases hv : a.Version = ""
    · refine ⟨.missingVersion, by simp [ValidateArchive, hv], Or.inl rfl, ?_⟩
      intro m
      exact ne_of_head_ne (show _ = some 'm' from rfl)
        (renderImportError_malformed_head m) (by decide)
    · refine ⟨.unsupportedVersion a.Version FormatVersion, ?_, Or.inr rfl, ?_⟩
      · unfold ValidateArchive
        rw [if_neg hv, if_pos h]
      · intro m
        exact ne_of_head_ne (renderValidationError_unsupported_head _ _)
          (renderImportError_malformed_head m) (by decide)

/-- Witness for C3 at the spec's example version "2.0". -/
theorem C3_version_gate_witness :
    ImportFromAICS (.ok { Version := "2.0" }) =
      .error (.unsupportedVersion "2.0" FormatVersion) :=
  (C3_version_gate { Version := "2.0" } (by decide)).1

theorem ValidateArchive_sessions (a : Archive) (hv : a.Version = FormatVersion)
    (hc : a.Creator.Name ≠ "") (hne : a.Log.Sessions ≠ []) :
    ValidateArchive a = validateSessions 0 a.Log.Sessions := by
  unfold ValidateArchive
  rw [if_neg (by rw [hv]; decide), if_neg (by simp [hv]), if_neg hc, if_neg hne]

/-- C4: `ValidateArchive` checks its rules in source order and reports the
first violated rule with that rule's own distinct error: version present,
version supported, creator name present, at least one session, then per
session (all earlier sessions passing) id present before non-empty
messages, then per message (all earlier messages passing) id, role,
content. In particular a session with a valid id and zero messages yields
the no-messages error, which differs from the missing-id error both as a
value and as a rendered message. -/
theorem C4_validation_order :
    (∀ a : Archive, a.Version = "" → ValidateArchive a = some .missingVersion) ∧
    (∀ a : Archive, a.Version ≠ "" → a.Version ≠ FormatVersion →
      ValidateArchive a = some (.unsupportedVersion a.Version FormatVersion)) ∧
    (∀ a : Archive, a.Version = FormatVersion → a.Creator.Name = "" →
      ValidateArchive a = some .missingCreatorName) ∧
    (∀ a : Archive, a.Version = FormatVersion → a.Creator.Name ≠ "" →
      a.Log.Sessions = [] → ValidateArchive a = some .noSessions) ∧
    (∀ (a : Archive) (pre : List Session) (s : Session) (rest : List Session),
      a.Version = FormatVersion → a.Creator.Name ≠ "" →
      a.Log.Sessions = pre ++ s :: rest → (∀ x ∈ pre, sessionOK x) →
      s.ID = "" → ValidateArchive a = some (.sessionMissingID pre.length)) ∧
    (∀ (a : Archive) (pre : List Session) (s : Session) (rest : List Session),
      a.Version = FormatVersion → a.Creator.Name ≠ "" →
      a.Log.Sessions = pre ++ s :: rest → (∀ x ∈ pre, sessionOK x) →
      s.ID ≠ "" → s.Messages = [] →
      ValidateArchive a = some (.sessionNoMessages s.ID)) ∧
    (∀ (a : Archive) (pre : List Session) (s : Session) (rest : List Session)
        (mpre : List Message) (m : Message) (mrest : List Message),
      a.Version = FormatVersion → a.Creator.Name ≠ "" →
      a.Log.Sessions = pre ++ s :: rest → (∀ x ∈ pre, sessionOK x) →
      s.ID ≠ "" → s.Messages = mpre ++ m :: mrest → (∀ x ∈ mpre, messageOK x) →
      m.ID = "" → ValidateArchive a = some (.messageMissingID s.ID mpre.length)) ∧
    (∀ (a : Archive) (pre : List Session) (s : Session) (rest : List Session)
        (mpre : List Message) (m : Message) (mrest : List Message),
      a.Version = FormatVersion → a.Creator.Name ≠ "" →
      a.Log.Sessions = pre ++ s :: rest → (∀ x ∈ pre, sessionOK x) →
      s.ID ≠ "" → s.Messages = mpre ++ m :: mrest → (∀ x ∈ mpre, messageOK x) →
      m.ID ≠ "" → m.Role = "" →
      ValidateArchive a = some (.messageMissingRole s.ID m.ID)) ∧
    (∀ (a : Archive) (pre : List Session) (s : Session) (rest : List Session)
        (mpre : List Message) (m : Message) (mrest : List Message),
      a.Version = FormatVersion → a.Creator.Name ≠ "" →
      a.Log.Sessions = pre ++ s :: rest → (∀ x ∈ pre, sessionOK x) →
      s.ID ≠ "" → s.Messages = mpre ++ m :: mrest → (∀ x ∈ mpre, messageOK x) →
      m.ID ≠ "" → m.Role ≠ "" → m.Content = [] →
      ValidateArchive a = some (.messageNoContent s.ID m.ID)) ∧
    (∀ (sid : String) (i : Nat),
      (ValidationError.sessionNoMessages sid) ≠ .sessionMissingID i) ∧
    (∀ (sid : String) (i : Nat),
      renderValidationError (.sessionNoMessages sid) ≠
        renderValidationError (.sessionMissingID i)) := by
  refine ⟨?_, ?_, ?_, ?_, ?_, ?_, ?_, ?_, ?_, ?_, ?_⟩
  · intro a hv
    unfold ValidateArchive
    rw [if_pos hv]
  · intro a hv h
    unfold ValidateArchive
    rw [if_neg hv, if_pos h]
  · intro a hv hc
    unfold ValidateArchive
    rw [if_neg (by rw [hv]; decide), if_neg (by simp [hv]), if_pos hc]
  · intro a hv hc hs
    unfold ValidateArchive
    rw [if_neg (by rw [hv]; decide), if_neg (by simp [hv]), if_neg hc, if_pos hs]
  · intro a pre s rest hv hc hs hpre hid
    rw [ValidateArchive_sessions a hv hc (by rw [hs]; simp), hs,
      validateSessions_append 0 pre _ hpre]
    simp [validateSessions, hid]
  · intro a pre s rest hv hc hs hpre hid hmsgs
    rw [ValidateArchive_sessions a hv hc (by rw [hs]; simp), hs,
      validateSessions_append 0 pre _ hpre]
    simp [validateSessions, hid, hmsgs]
  · intro a pre s rest mpre m mrest hv hc hs hpre hid hmsgs hmpre hmid
    rw [ValidateArchive_sessions a hv hc (by rw [hs]; simp), hs,
      validateSessions_append 0 pre _ hpre]
    simp only [validateSessions, if_neg hid, if_neg (by rw [hmsgs]; simp : ¬s.Messages = []),
      hmsgs, validateMessages_append s.ID 0 mpre _ hmpre]
    simp [validateMessages, hmid]
  · intro a pre s rest mpre m mrest hv hc hs hpre hid hmsgs hmpre hmid hrole
    rw [ValidateArchive_sessions a hv hc (by rw [hs]; simp), hs,
      validateSessions_append 0 pre _ hpre]
    simp only [validateSessions, if_neg hid, if_neg (by rw [hmsgs]; simp : ¬s.Messages = []),
      hmsgs, validateMessages_append s.ID 0 mpre _ hmpre]
    simp [validateMessages, hmid, hrole]
  · intro a pre s rest mpre m mrest hv hc hs hpre hid hmsgs hmpre hmid hrole hcontent
    rw [ValidateArchive_sessions a hv hc (by rw [hs]; simp), hs,
      validateSessions_append 0 pre _ hpre]
    simp only [validateSessions, if_neg hid, if_neg (by rw [hmsgs]; simp : ¬s.Messages = []),
      hmsgs, validateMessages_append s.ID 0 mpre _ hmpre]
    simp [validateMessages, hmid, hrole, hcontent]
  · intro sid i hne
    cases hne
  · intro sid i
    have h1 : (renderValidationError (.sessionNoMessages sid)).data.getLast? = some 's' := by
      simp only [renderValidationError]
      exact data_last_of_append _ (by rfl) (by decide)
    have h2 : (renderValidationError (.sessionMissingID i)).data.getLast? = some 'D' := by
      simp only [renderValidationError]
      exact data_last_of_append _ (by rfl) (by decide)
    exact ne_of_last_ne h1 h2 (by decide)

/-- Witness for C4: a concrete otherwise-valid archive whose single session
has a valid id and zero messages is rejected for "no messages", an error
distinct from missing-id. -/
theorem C4_validation_order_witness :
    ValidateArchive
        { Version := "1.0", Creator := { Name := "tool" },
          Log := { Version := "1.0", Creator := { Name := "tool" },
                   Sessions := [{ ID := "s1", Messages := [] }] } } =
      some (.sessionNoMessages "s1") ∧
    (ValidationError.sessionNoMessages "s1") ≠ .sessionMissingID 0 :=
  ⟨C4_validation_order.2.2.2.2.2.1
      { Version := "1.0", Creator := { Name := "tool" },
        Log := { Version := "1.0", Creator := { Name := "tool" },
                 Sessions := [{ ID := "s1", Messages := [] }] } }
      [] { ID := "s1", Messages := [] } [] rfl (by decide) rfl (by simp) (by decide) rfl,
    C4_validation_order.2.2.2.2.2.2.2.2.2.1 "s1" 0⟩

/-- Replace every message role in an archive (C9 instrumentation). -/
def mapRoles (f : String → String) (a : Archive) : Archive :=
  { a with Log := { a.Log with Sessions := a.Log.Sessions.map (fun s =>
      { s with Messages := s.Messages.map (fun m => { m with Role := f m.Role }) }) } }

theorem validateMessages_mapRole (f : String → String) (hf : ∀ r, f r = "" ↔ r = "")
    (sid : String) (j : Nat) (L : List Message) :
    validateMessages sid j (L.map (fun m => { m with Role := f m.Role })) =
      validateMessages sid j L := by
  induction L generalizing j with
  | nil => rfl
  | cons m rest ih =>
    simp only [List.map_cons, validateMessages]
    by_cases h1 : m.ID = ""
    · simp [h1]
    · rw [if_neg h1, if_neg h1]
      by_cases h2 : m.Role = ""
      · rw [if_pos ((hf m.Role).2 h2), if_pos h2]
      · rw [if_neg (fun hh => h2 ((hf m.Role).1 hh)), if_neg h2]
        by_cases h3 : m.Content = []
        · rw [if_pos h3, if_pos h3]
        · rw [if_neg h3, if_neg h3, ih]

theorem validateSessions_mapRole (f : String → String) (hf : ∀ r, f r = "" ↔ r = "")
    (i : Nat) (L : List Session) :
    validateSessions i (L.map (fun s =>
        { s with Messages := s.Messages.map (fun m => { m with Role := f m.Role }) })) =
      validateSessions i L := by
  induction L generalizing i with
  | nil => rfl
  | cons s rest ih =>
    simp only [List.map_cons, validateSessions]
    by_cases h1 : s.ID = ""
    · simp [h1]
    · rw [if_neg h1, if_neg h1]
      by_cases h2 : s.Messages = []
      · rw [if_pos (by rw [h2]; rfl), if_pos h2]
      · rw [if_neg (by simpa using h2), if_neg h2,
          validateMessages_mapRole f hf s.ID 0 s.Messages]
        cases validateMessages s.ID 0 s.Messages with
        | some e => rfl
        | none => exact ih (i + 1)

/-- C9: `ValidateArchive` inspects roles only for non-emptiness: replacing
every role by an emptiness-preserving function (for instance sending every
non-empty role to "banana", outside the documented user/assistant/system/
tool set) never changes the verdict; concretely, an otherwise-valid archive
whose message role is "banana" passes validation. -/
theorem C9_role_nonempty_only :
    (∀ (f : String → String), (∀ r, f r = "" ↔ r = "") →
      ∀ a : Archive, ValidateArchive (mapRoles f a) = ValidateArchive a) ∧
    ValidateArchive
        { Version := "1.0", Creator := { Name := "tool" },
          Log := { Version := "1.0", Creator := { Name := "tool" },
                   Sessions := [{ ID := "s1",
                                  Messages := [{ ID := "m1", Role := "banana",
                                                 Content := [{ «Type» := "text",
                                                               Text := "hi" }] }] }] } } =
      none := by
  constructor
  · intro f hf a
    unfold ValidateArchive mapRoles
    simp only []
    by_cases h1 : a.Version = ""
    · simp [h1]
    · rw [if_neg h1, if_neg h1]
      by_cases h2 : a.Version ≠ FormatVersion
      · rw [if_pos h2, if_pos h2]
      · rw [if_neg h2, if_neg h2]
        by_cases h3 : a.Creator.Name = ""
        · rw [if_pos h3, if_pos h3]
        · rw [if_neg h3, if_neg h3]
          by_cases h4 : a.Log.Sessions = []
          · rw [if_pos (by rw [h4]; rfl), if_pos h4]
          · rw [if_neg (by simpa using h4), if_neg h4,
              validateSessions_mapRole f hf 0 a.Log.Sessions]
  · decide

/-- Witness for C9: the invariance applied to the concrete replacement
sending every non-empty role to "banana" on a concrete archive. -/
theorem C9_role_nonempty_only_witness :
    ValidateArchive
        (mapRoles (fun r => if r = "" then "" else "banana")
          { Version := "1.0", Creator := { Name := "tool" },
            Log := { Version := "1.0", Creator := { Name := "tool" },
                     Sessions := [{ ID := "s1",
                                    Messages := [{ ID := "m1", Role := "user",
                                                   Content := [{ «Type» := "text",
                                                                 Text := "hi" }] }] }] } }) =
      ValidateArchive
        { Version := "1.0", Creator := { Name := "tool" },
          Log := { Version := "1.0", Creator := { Name := "tool" },
                   Sessions := [{ ID := "s1",
                                  Messages := [{ ID := "m1", Role := "user",
                                                 Content := [{ «Type» := "text",
                                                               Text := "hi" }] }] }] } } :=
  C9_role_nonempty_only.1 _ (fun r => by by_cases h : r = "" <;> simp [h]) _

/-- C5 (code bug): on a content part of type tool_call with text "ls -la",
the import re-tagging prepends the mojibake marker literal of the source
file, producing "ðŸ”§ ls -la", not the "🔧 ls -la" that the spec and the
export side's marker give; a text already carrying the real emoji marker
(as written by the export side) receives a second marker. Re-tagging is
idempotent only with respect to the mojibake literal itself. -/
theorem C5_retagging_code_bug :
    convertAICSMessage
        { ID := "m1", Role := "user",
          Content := [{ «Type» := "tool_call", Text := "ls -la" }] } =
      .ok { ID := "m1", Role := "user", Parts := ["ðŸ”§ ls -la"] } ∧
    ("ðŸ”§ ls -la" : String) ≠ "🔧 ls -la" ∧
    retagText "tool_call" "🔧 ls -la" = "ðŸ”§ 🔧 ls -la" ∧
    retagText "tool_call" "ðŸ”§ ls -la" = "ðŸ”§ ls -la" := by
  refine ⟨by decide, by decide, by decide, by decide⟩

/-- C7 (code bug): the format-back layout "2006-01-02T15:04:05Z" appends a
literal Z without converting the instant to UTC: a timestamp parsed from
"2024-01-01T10:00:00+05:00" (absolute instant 2024-01-01T05:00:00Z) is
written back as "2024-01-01T10:00:00Z", a string that denotes a different
absolute instant, five hours later. -/
theorem C7_format_back_not_utc :
    parseTimestamp "2024-01-01T10:00:00+05:00" =
      some ⟨2024, 1, 1, 10, 0, 0, 0, 18000⟩ ∧
    convertAICSMessage
        { ID := "m1", Role := "user",
          Timestamp := some ⟨2024, 1, 1, 10, 0, 0, 0, 18000⟩ } =
      .ok { ID := "m1", Role := "user", CreatedAt := some "2024-01-01T10:00:00Z" } ∧
    convertAICSSession
        { ID := "s1", StartedAt := some ⟨2024, 1, 1, 10, 0, 0, 0, 18000⟩ } =
      .ok ({ ID := "s1", CreatedAt := some "2024-01-01T10:00:00Z",
             MessageCount := some 0 }, []) ∧
    parseTimestamp "2024-01-01T10:00:00Z" = some ⟨2024, 1, 1, 10, 0, 0, 0, 0⟩ ∧
    (GoTime.abs ⟨2024, 1, 1, 10, 0, 0, 0, 0⟩ ≠ GoTime.abs ⟨2024, 1, 1, 10, 0, 0, 0, 18000⟩) := by
  refine ⟨by decide, by decide, by decide, by decide, by decide⟩

theorem convertSessionLoop_ok (cm rm : String) (msgs : List Message)
    (upd : Option GoTime) (L : List DbParsedMessage) :
    ∃ r, convertSessionLoop cm rm msgs upd L = .ok r := by
  induction L generalizing msgs upd with
  | nil => exact ⟨_, rfl⟩
  | cons m rest ih => exact ih _ _

theorem convertSessionWith_ok (cm rm : String) (dbSession : DbSession)
    (dbMessages : List DbParsedMessage) :
    ∃ s, convertSessionWith cm rm dbSession dbMessages = .ok s := by
  unfold convertSessionWith
  obtain ⟨⟨msgs, upd⟩, hr⟩ :=
    convertSessionLoop_ok cm rm [] (parseOptTimestamp dbSession.CreatedAt) dbMessages
  rw [hr]
  exact ⟨_, rfl⟩

theorem exportLoop_ok (messages : String → List DbParsedMessage)
    (acc : List Session) (L : List DbSession) :
    ∃ r, exportLoop messages acc L = .ok r := by
  induction L generalizing acc with
  | nil => exact ⟨_, rfl⟩
  | cons s rest ih =>
    obtain ⟨sess, hs⟩ := convertSessionWith_ok exportToolCallMarker exportToolResultMarker
      s (messages s.ID)
    simp only [exportLoop, convertSession, hs]
    exact ih _

/-- C8: export conversion of a message or session cannot fail (malformed
input is tolerated), so `ExportToAICS` returns an archive and a nil error
on every input. -/
theorem C8_export_never_fails (sessions : List DbSession)
    (messages : String → List DbParsedMessage) (providerName : String) :
    ∃ a : Archive, ExportToAICS sessions messages providerName = .ok a := by
  unfold ExportToAICS
  obtain ⟨r, hr⟩ := exportLoop_ok messages [] sessions
  rw [hr]
  exact ⟨_, rfl⟩

/-- C6 counterexample: the Unix-epoch integer string "1705329000" matches
none of the attempted layouts, so `parseTimestamp` yields `none` instead of
the successful parse the claim asserts. -/
theorem C6_epoch_not_parsed : parseTimestamp "1705329000" = none := by decide

/-- C6 (amended): the normalizer attempts the ordered layout list — strict
RFC3339, RFC3339Nano, literal-Z datetime, SQL datetime, T-separated
datetime, RFC1123, RFC822 — and Unix-epoch integer-as-string is not among
them: an epoch string fails every layout; the result is `none` (a soft
failure, never an error) exactly when every attempted layout fails; empty
input yields absent. -/
theorem C6_parse_format_list :
    parseTimestamp "" = none ∧
    (∀ ts : String, parseTimestamp ts = none ↔
      (parseRFC3339 ts = none ∧ parseRFC3339Nano ts = none ∧ parseLayoutTZ ts = none ∧
        parseLayoutSQL ts = none ∧ parseLayoutT ts = none ∧ parseRFC1123 ts = none ∧
        parseRFC822 ts = none)) ∧
    parseRFC3339 "1705329000" = none ∧ parseRFC3339Nano "1705329000" = none ∧
    parseLayoutTZ "1705329000" = none ∧ parseLayoutSQL "1705329000" = none ∧
    parseLayoutT "1705329000" = none ∧ parseRFC1123 "1705329000" = none ∧
    parseRFC822 "1705329000" = none := by
  refine ⟨by decide, ?_, by decide, by decide, by decide, by decide, by decide,
    by decide, by decide⟩
  intro ts
  by_cases h : ts = ""
  · subst h
    decide
  · unfold parseTimestamp
    rw [if_neg h]
    cases h1 : parseRFC3339 ts <;>
      cases h2 : parseRFC3339Nano ts <;>
        cases h3 : parseLayoutTZ ts <;>
          cases h4 : parseLayoutSQL ts <;>
            cases h5 : parseLayoutT ts <;>
              cases h6 : parseRFC1123 ts <;>
                cases h7 : parseRFC822 ts <;>
                  simp [Option.orElse, h1, h2, h3, h4, h5, h6, h7]

theorem after_true_iff (t u : GoTime) :
    t.after u = true ↔ (u.abs < t.abs ∨ (t.abs = u.abs ∧ u.nsec < t.nsec)) := by
  simp [GoTime.after]

theorem after_false_iff (t u : GoTime) :
    t.after u = false ↔ ¬ (u.abs < t.abs ∨ (t.abs = u.abs ∧ u.nsec < t.nsec)) := by
  rw [← after_true_iff, Bool.not_eq_true]

theorem after_irrefl (t : GoTime) : t.after t = false := by
  rw [after_false_iff]
  omega

theorem after_asymm {t u : GoTime} (h : t.after u = true) : u.after t = false := by
  rw [after_true_iff] at h
  rw [after_false_iff]
  omega

theorem not_after_trans {x y z : GoTime} (h1 : x.after y = false)
    (h2 : y.after z = false) : x.after z = false := by
  rw [after_false_iff] at h1 h2 ⊢
  omega

/-- The final updated-at value of the message loop, starting from a set
value: it stays set, is either the start or one of the message timestamps,
and no timestamp in the list (nor the start) is strictly after it. -/
theorem foldl_updStep_some (M : List Message) (a : GoTime) :
    ∃ r, M.foldl updStep (some a) = some r ∧
      (r = a ∨ ∃ m ∈ M, m.Timestamp = some r) ∧
      a.after r = false ∧
      (∀ m ∈ M, ∀ t, m.Timestamp = some t → t.after r = false) := by
  induction M generalizing a with
  | nil =>
    refine ⟨a, rfl, Or.inl rfl, after_irrefl a, ?_⟩
    intro m hm
    cases hm
  | cons m M ih =>
    cases hm : m.Timestamp with
    | none =>
      obtain ⟨r, h1, h2, h3, h4⟩ := ih a
      refine ⟨r, ?_, ?_, h3, ?_⟩
      · simpa [updStep, hm] using h1
      · rcases h2 with h2 | ⟨x, hx, hxt⟩
        · exact Or.inl h2
        · exact Or.inr ⟨x, List.mem_cons_of_mem m hx, hxt⟩
      · intro x hx t ht
        rcases List.mem_cons.1 hx with rfl | hx'
        · rw [hm] at ht; cases ht
        · exact h4 x hx' t ht
    | some tm =>
      by_cases hafter : tm.after a = true
      · obtain ⟨r, h1, h2, h3, h4⟩ := ih tm
        refine ⟨r, ?_, ?_, ?_, ?_⟩
        · simpa [updStep, hm, hafter] using h1
        · rcases h2 with rfl | ⟨x, hx, hxt⟩
          · exact Or.inr ⟨m, List.mem_cons_self m M, hm⟩
          · exact Or.inr ⟨x, List.mem_cons_of_mem m hx, hxt⟩
        · exact not_after_trans (after_asymm hafter) h3
        · intro x hx t ht
          rcases List.mem_cons.1 hx with rfl | hx'
          · rw [hm] at ht
            cases ht
            exact h3
          · exact h4 x hx' t ht
      · rw [Bool.not_eq_true] at hafter
        obtain ⟨r, h1, h2, h3, h4⟩ := ih a
        refine ⟨r, ?_, ?_, h3, ?_⟩
        · simpa [updStep, hm, hafter] using h1
        · rcases h2 with h2 | ⟨x, hx, hxt⟩
          · exact Or.inl h2
          · exact Or.inr ⟨x, List.mem_cons_of_mem m hx, hxt⟩
        · intro x hx t ht
          rcases List.mem_cons.1 hx with rfl | hx'
          · rw [hm] at ht
            cases ht
            exact not_after_trans hafter h3
          · exact h4 x hx' t ht

/-- The message loop leaves updated-at untouched when no message has a
parseable timestamp. -/
theorem foldl_updStep_none (M : List Message) (u : Option GoTime)
    (h : ∀ m ∈ M, m.Timestamp = none) : M.foldl updStep u = u := by
  induction M with
  | nil => rfl
  | cons m M ih =>
    rw [List.foldl_cons]
    have hm := h m (List.mem_cons_self m M)
    rw [show updStep u m = u by simp [updStep, hm]]
    exact ih (fun x hx => h x (List.mem_cons_of_mem m hx))

theorem convertSessionLoop_eq (cm rm : String) (msgs : List Message)
    (upd : Option GoTime) (L : List DbParsedMessage) :
    convertSessionLoop cm rm msgs upd L =
      .ok (msgs ++ L.map (buildMessage cm rm),
        (L.map (buildMessage cm rm)).foldl updStep upd) := by
  induction L generalizing msgs upd with
  | nil => simp [convertSessionLoop]
  | cons m rest ih =>
    simp only [convertSessionLoop, convertMessageWith, List.map_cons, List.foldl_cons]
    rw [ih]
    simp

/-- Closed form of `convertSession`: the converted messages and the
derived timestamps. -/
theorem convertSessionWith_eq (cm rm : String) (dbSession : DbSession)
    (L : List DbParsedMessage) :
    convertSessionWith cm rm dbSession L =
      .ok
        { ID := dbSession.ID
          Title := dbSession.Title.getD ""
          StartedAt := parseOptTimestamp dbSession.CreatedAt
          UpdatedAt := (L.map (buildMessage cm rm)).foldl updStep
            (parseOptTimestamp dbSession.CreatedAt)
          Messages := L.map (buildMessage cm rm)
          Metadata :=
            match dbSession.MessageCount with
            | some c => [("message_count", c)]
            | none => [] } := by
  unfold convertSessionWith
  rw [convertSessionLoop_eq]
  simp

/-- C2: with a parseable session start time `T0`, the exported updated-at
is initialized to `T0` (empty message list keeps it there), stays `T0`
when every message timestamp is unparseable, and equals the latest message
timestamp `T2` whenever some message carries `T2`, every message timestamp
is `T2` or strictly before it, and `T2` is strictly after `T0` — in
whatever order the messages come. The update step advances only on a
strictly-after timestamp: ties and absent timestamps never advance it. -/
theorem C2_updatedAt_latest (dbSession : DbSession) (dbMessages : List DbParsedMessage)
    (c : String) (T0 : GoTime)
    (hc : dbSession.CreatedAt = some c) (hT0 : parseTimestamp c = some T0) :
    (∃ s, convertSession dbSession [] = .ok s ∧ s.UpdatedAt = some T0) ∧
    ((∀ m ∈ dbMessages, parseOptTimestamp m.CreatedAt = none) →
      ∃ s, convertSession dbSession dbMessages = .ok s ∧ s.UpdatedAt = some T0) ∧
    (∀ T2 : GoTime,
      (∃ m ∈ dbMessages, parseOptTimestamp m.CreatedAt = some T2) →
      (∀ m ∈ dbMessages, ∀ t, parseOptTimestamp m.CreatedAt = some t →
        t = T2 ∨ T2.after t = true) →
      T2.after T0 = true →
      ∃ s, convertSession dbSession dbMessages = .ok s ∧ s.UpdatedAt = some T2) ∧
    (∀ (u t : GoTime) (msg : Message), msg.Timestamp = some t →
      (t.after u = false → updStep (some u) msg = some u) ∧
      (t.after u = true → updStep (some u) msg = some t)) ∧
    (∀ (u : Option GoTime) (msg : Message), msg.Timestamp = none →
      updStep u msg = u) := by
  have hparse : parseOptTimestamp dbSession.CreatedAt = some T0 := by
    rw [hc]
    exact hT0
  have hbuild : ∀ m : DbParsedMessage,
      (buildMessage exportToolCallMarker exportToolResultMarker m).Timestamp =
        parseOptTimestamp m.CreatedAt := fun m => rfl
  refine ⟨?_, ?_, ?_, ?_, ?_⟩
  · refine ⟨_, convertSessionWith_eq _ _ _ _, ?_⟩
    simp [hparse]
  · intro hnone
    refine ⟨_, convertSessionWith_eq _ _ _ _, ?_⟩
    simp only [hparse]
    exact foldl_updStep_none _ _ (by
      intro m hm
      obtain ⟨x, hx, rfl⟩ := List.mem_map.1 hm
      rw [hbuild]
      exact hnone x hx)
  · intro T2 ⟨m2, hm2, ht2⟩ hmax hafter0
    refine ⟨_, convertSessionWith_eq _ _ _ _, ?_⟩
    simp only [hparse]
    obtain ⟨r, h1, h2, h3, h4⟩ :=
      foldl_updStep_some (dbMessages.map (buildMessage exportToolCallMarker
        exportToolResultMarker)) T0
    rw [h1]
    have hT2r : T2.after r = false := by
      refine h4 _ (List.mem_map_of_mem _ hm2) T2 ?_
      rw [hbuild]
      exact ht2
    rcases h2 with rfl | ⟨x, hx, hxt⟩
    · rw [hT2r] at hafter0
      cases hafter0
    · obtain ⟨y, hy, rfl⟩ := List.mem_map.1 hx
      rw [hbuild] at hxt
      rcases hmax y hy r hxt with rfl | hr
      · rfl
      · rw [hT2r] at hr
        cases hr
  · intro u t msg hmsg
    constructor
    · intro hf
      simp [updStep, hmsg, hf]
    · intro ht
      simp [updStep, hmsg, ht]
  · intro u msg hmsg
    cases u <;> simp [updStep, hmsg]

/-- Witness for C2: start 08:00, messages out of order (10:00 then 09:00);
updated-at equals the 10:00 timestamp. -/
theorem C2_updatedAt_latest_witness :
    ∃ s, convertSession
        { ID := "s1", CreatedAt := some "2024-01-01T08:00:00Z" }
        [{ ID := "m1", Role := "user", CreatedAt := some "2024-01-01T10:00:00Z" },
         { ID := "m2", Role := "assistant", CreatedAt := some "2024-01-01T09:00:00Z" }] =
      .ok s ∧ s.UpdatedAt = some ⟨2024, 1, 1, 10, 0, 0, 0, 0⟩ :=
  (C2_updatedAt_latest
      { ID := "s1", CreatedAt := some "2024-01-01T08:00:00Z" }
      [{ ID := "m1", Role := "user", CreatedAt := some "2024-01-01T10:00:00Z" },
       { ID := "m2", Role := "assistant", CreatedAt := some "2024-01-01T09:00:00Z" }]
      "2024-01-01T08:00:00Z" ⟨2024, 1, 1, 8, 0, 0, 0, 0⟩ rfl (by decide)).2.2.1
    ⟨2024, 1, 1, 10, 0, 0, 0, 0⟩
    ⟨{ ID := "m1", Role := "user", CreatedAt := some "2024-01-01T10:00:00Z" },
      by simp, by decide⟩
    (by decide) (by decide)

theorem exportIndividuallyLoop_ok_segment (messages : String → List DbParsedMessage)
    (baseDir providerName clientID : String) (idGen : Nat → String)
    (pre rest : List DbSession) (k : Nat) (files : List String)
    (hpre : ∀ s ∈ pre, ∃ t, parseOptTimestamp s.CreatedAt = some t) :
    ∃ newFiles : List String,
      exportIndividuallyLoop messages baseDir providerName clientID idGen k files
          (pre ++ rest) =
        exportIndividuallyLoop messages baseDir providerName clientID idGen
          (k + pre.length) (files ++ newFiles) rest ∧
      newFiles.length = pre.length := by
  induction pre generalizing k files with
  | nil => exact ⟨[], by simp, rfl⟩
  | cons s pre ih =>
    obtain ⟨t, ht⟩ := hpre s (List.mem_cons_self s pre)
    simp only [List.cons_append, List.append_eq, exportIndividuallyLoop, convertSessionP3,
      convertSessionWith_eq, ExportSessionToFile, ht]
    obtain ⟨newFiles, hloop, hlen⟩ :=
      ih (k + 1)
        (files ++ [baseDir ++ "/" ++ formatYear t ++ "/" ++ formatMonth t ++ "/" ++
          formatDay t ++ "/" ++ idGen k ++ ".aics.json"])
        (fun x hx => hpre x (List.mem_cons_of_mem s hx))
    refine ⟨(baseDir ++ "/" ++ formatYear t ++ "/" ++ formatMonth t ++ "/" ++
      formatDay t ++ "/" ++ idGen k ++ ".aics.json") :: newFiles, ?_, by simp [hlen]⟩
    rw [hloop]
    simp only [List.append_assoc, List.singleton_append, List.length_cons]
    congr 1
    omega

/-- C10: a session whose source creation timestamp is absent or
unparseable converts to an AICS session without a start time;
`ExportSessionToFile` rejects any such session with the error "session has
no start time"; and `ExportSessionsIndividually` aborts the whole batch at
the first such session, returning the files exported so far (one per
preceding session) together with the wrapped error naming the freshly
assigned session id. -/
theorem C10_no_start_time (pre : List DbSession) (bad : DbSession)
    (rest : List DbSession) (messages : String → List DbParsedMessage)
    (baseDir providerName clientID : String) (idGen : Nat → String)
    (hbad : parseOptTimestamp bad.CreatedAt = none)
    (hpre : ∀ s ∈ pre, ∃ t, parseOptTimestamp s.CreatedAt = some t) :
    (∀ session : Session, session.StartedAt = none →
      ExportSessionToFile session baseDir providerName =
        .error "session has no start time") ∧
    (∃ s, convertSessionP3 bad (messages bad.ID) = .ok s ∧ s.StartedAt = none) ∧
    (ExportSessionsIndividually (pre ++ bad :: rest) messages baseDir providerName
        clientID idGen).2 =
      some ("failed to export session " ++ idGen pre.length ++ ": " ++
        "session has no start time") ∧
    (ExportSessionsIndividually (pre ++ bad :: rest) messages baseDir providerName
        clientID idGen).1.length = pre.length := by
  have hone : ∀ (session : Session), session.StartedAt = none →
      ExportSessionToFile session baseDir providerName =
        .error "session has no start time" := by
    intro session h
    unfold ExportSessionToFile
    rw [h]
  refine ⟨hone, ?_, ?_⟩
  · refine ⟨_, convertSessionWith_eq _ _ _ _, ?_⟩
    simpa using hbad
  · obtain ⟨newFiles, hloop, hlen⟩ := exportIndividuallyLoop_ok_segment messages baseDir
      providerName clientID idGen pre (bad :: rest) 0 [] hpre
    have hstep : exportIndividuallyLoop messages baseDir providerName clientID idGen
        (0 + pre.length) ([] ++ newFiles) (bad :: rest) =
        (newFiles, some ("failed to export session " ++ idGen (0 + pre.length) ++ ": " ++
          "session has no start time")) := by
      simp only [exportIndividuallyLoop, convertSessionP3, convertSessionWith_eq]
      rw [hone _ (by simpa using hbad)]
      simp
    unfold ExportSessionsIndividually
    rw [hloop, hstep]
    simp only [Nat.zero_add]
    exact ⟨by simp, by simpa using hlen⟩

/-- Witness for C10: one exportable session followed by one without a
creation timestamp; the batch stops after one file with the no-start-time
error. -/
theorem C10_no_start_time_witness :
    (ExportSessionsIndividually
        [{ ID := "a", CreatedAt := some "2024-01-01T10:00:00Z" }, { ID := "b" }]
        (fun _ => []) "out" "crush" "cid" (fun k => "uuid" ++ Nat.repr k)).2 =
      some ("failed to export session " ++ "uuid" ++ Nat.repr 1 ++ ": " ++
        "session has no start time") ∧
    (ExportSessionsIndividually
        [{ ID := "a", CreatedAt := some "2024-01-01T10:00:00Z" }, { ID := "b" }]
        (fun _ => []) "out" "crush" "cid" (fun k => "uuid" ++ Nat.repr k)).1.length = 1 := by
  have h := C10_no_start_time
    [{ ID := "a", CreatedAt := some "2024-01-01T10:00:00Z" }] { ID := "b" } []
    (fun _ => []) "out" "crush" "cid" (fun k => "uuid" ++ Nat.repr k)
    (by decide)
    (by
      intro s hs
      rcases List.mem_singleton.1 hs with rfl
      exact ⟨⟨2024, 1, 1, 10, 0, 0, 0, 0⟩, by decide⟩)
  exact ⟨h.2.2.1, h.2.2.2⟩

end AICS
